import Mathlib

/-!
Verification of `kombu/utils/json.py` (octoenergy/kombu).

The development shallowly embeds the module's data model and operations:

* `PyVal` models the Python values that can reach the JSON layer:
  JSON-native values (`none`, `bool`, `int`, `str`, `list`, `dict`),
  the registered rich kinds (`datetime`, `date`, `time`, `decimal`, `uuid`),
  byte strings, objects exposing a `__json__` method, and unregistered
  foreign objects.
* `JSONEncoder.default` embeds `JSONEncoder.default` from the source.
* `serializeVal` / `dumps` model `json.dumps` driven by that encoder.
* `object_hook`, `loads`, `register_type` and the decoder table embed the
  corresponding source functions and tables.
* `parseValue` and friends model the stdlib JSON parser in the
  configuration the module uses (with the object hook applied to every
  parsed object literal).  Number parsing covers integers, the only
  numerals these claims reach; floats are outside the model.
-/

/-- Python datetime.datetime: naive when `tz = none`, aware with a fixed
UTC offset in whole minutes otherwise (`some 0` is UTC). -/
structure PyDateTime where
  year : Nat
  month : Nat
  day : Nat
  hour : Nat
  minute : Nat
  second : Nat
  microsecond : Nat
  tz : Option Int
deriving DecidableEq

/-- Python datetime.date. -/
structure PyDate where
  year : Nat
  month : Nat
  day : Nat
deriving DecidableEq

/-- Python datetime.time (may carry a fixed UTC offset). -/
structure PyTime where
  hour : Nat
  minute : Nat
  second : Nat
  microsecond : Nat
  tz : Option Int
deriving DecidableEq

/-- Python decimal.Decimal, modelled by the canonical text `str` prints
for it (for ordinary literals such as "19.99" the text is the literal). -/
structure DecimalVal where
  text : String
deriving DecidableEq

/-- Python uuid.UUID, modelled by its 32-character lowercase hex form. -/
structure UUIDVal where
  hex : String
deriving DecidableEq

/-- Python values reaching the JSON layer.  `objJson u p` is an object
that behaves like `u` for `isinstance` checks but exposes a `__json__`
method returning `p`.  `foreignObj` is an instance of some other type with
no `__json__` method (the name of its type is recorded). -/
inductive PyVal where
  | none : PyVal
  | bool (b : Bool) : PyVal
  | int (n : Int) : PyVal
  | str (s : String) : PyVal
  | list (xs : List PyVal) : PyVal
  | dict (entries : List (String × PyVal)) : PyVal
  | bytes (b : List Nat) : PyVal
  | datetime (d : PyDateTime) : PyVal
  | date (d : PyDate) : PyVal
  | time (t : PyTime) : PyVal
  | decimal (d : DecimalVal) : PyVal
  | uuid (u : UUIDVal) : PyVal
  | objJson (underlying : PyVal) (payload : PyVal) : PyVal
  | foreignObj (typeName : String) : PyVal

/-- Errors a call can raise.  `valueError` carries the message and the
offending mapping, as in `raise ValueError("Unsupported type", type, o)`
(the second source argument is the `type` builtin, a constant, so the
model keeps the message and the mapping `o`). -/
inductive PyErr where
  | valueError (msg : String) (obj : List (String × PyVal)) : PyErr
  | typeError (msg : String) : PyErr
  | keyError (key : String) : PyErr
  | decodeError : PyErr
  | unicodeDecodeError : PyErr
  | invalidOperation : PyErr

/-! ### Decimal digit printing (`%d` formatting used by `isoformat`) -/

/-- Digits of `n`, most significant first; `fuel` bounds the recursion
(`fuel = n` always suffices). -/
def natDigitsAux : Nat → Nat → List Char
  | 0, _ => []
  | fuel + 1, n =>
    if n = 0 then [] else natDigitsAux fuel (n / 10) ++ [Nat.digitChar (n % 10)]

/-- Decimal digits of `n` (Python `str(n)` for a non-negative int). -/
def natDigits (n : Nat) : List Char :=
  if n = 0 then ['0'] else natDigitsAux n n

/-- `%0wd`: decimal digits of `n` left-padded with zeros to width `w`. -/
def padNum (w : Nat) (n : Nat) : List Char :=
  List.replicate (w - (natDigits n).length) '0' ++ natDigits n

/-! ### isoformat printers (models of the stdlib `isoformat` methods) -/

/-- UTC-offset text `±HH:MM` appended by `isoformat` for aware values
(empty for naive values).  Offsets are whole minutes, as in every use
this module makes of them. -/
def offsetChars : Option Int → List Char
  | Option.none => []
  | Option.some k =>
    (if k < 0 then ['-'] else ['+'])
      ++ padNum 2 (k.natAbs / 60) ++ [':'] ++ padNum 2 (k.natAbs % 60)

/-- `datetime.isoformat()` without the offset part. -/
def PyDateTime.isoBaseChars (d : PyDateTime) : List Char :=
  padNum 4 d.year ++ ['-'] ++ padNum 2 d.month ++ ['-'] ++ padNum 2 d.day
    ++ ['T'] ++ padNum 2 d.hour ++ [':'] ++ padNum 2 d.minute ++ [':'] ++ padNum 2 d.second
    ++ (if d.microsecond = 0 then [] else '.' :: padNum 6 d.microsecond)

/-- `datetime.isoformat()` as a character list. -/
def PyDateTime.isoChars (d : PyDateTime) : List Char :=
  d.isoBaseChars ++ offsetChars d.tz

/-- `datetime.isoformat()`. -/
def PyDateTime.isoformat (d : PyDateTime) : String :=
  String.mk d.isoChars

/-- `date.isoformat()` as a character list. -/
def PyDate.isoChars (d : PyDate) : List Char :=
  padNum 4 d.year ++ ['-'] ++ padNum 2 d.month ++ ['-'] ++ padNum 2 d.day

/-- `date.isoformat()`. -/
def PyDate.isoformat (d : PyDate) : String :=
  String.mk d.isoChars

/-- `time.isoformat()` as a character list. -/
def PyTime.isoChars (t : PyTime) : List Char :=
  padNum 2 t.hour ++ [':'] ++ padNum 2 t.minute ++ [':'] ++ padNum 2 t.second
    ++ (if t.microsecond = 0 then [] else '.' :: padNum 6 t.microsecond)
    ++ offsetChars t.tz

/-- `time.isoformat()`. -/
def PyTime.isoformat (t : PyTime) : String :=
  String.mk t.isoChars

/-- `str(uuid)`: the 32 hex digits in 8-4-4-4-12 groups. -/
def UUIDVal.dashed (u : UUIDVal) : List Char :=
  u.hex.data.take 8 ++ ['-'] ++ (u.hex.data.drop 8).take 4 ++ ['-']
    ++ (u.hex.data.drop 12).take 4 ++ ['-'] ++ (u.hex.data.drop 16).take 4 ++ ['-']
    ++ u.hex.data.drop 20

/-- `str(uuid)` as a string. -/
def UUIDVal.str (u : UUIDVal) : String :=
  String.mk u.dashed

/-! ### The encoder (`JSONEncoder.default`) -/

/-- The characters of the literal `"+00:00"`. -/
def plusZeroSuffix : List Char := ['+', '0', '0', ':', '0', '0']

/-- Python `r.endswith(sfx)`: the last `len(sfx)` characters equal `sfx`. -/
def pyEndsWith (l sfx : List Char) : Bool :=
  decide (l.drop (l.length - sfx.length) = sfx)

/-- `r[:-6] + "Z"` rewriting applied by the encoder when the isoformat
text ends in `+00:00`. -/
def zRewriteChars (r : List Char) : List Char :=
  if pyEndsWith r plusZeroSuffix then r.take (r.length - 6) ++ ['Z'] else r

/-- `getattr(o, '__json__', None)`: the reducer of a value, when present. -/
def getJsonMethod : PyVal → Option PyVal
  | .objJson _ p => Option.some p
  | _ => Option.none

/-- `isinstance(o, dates)` with `dates = (datetime.datetime, datetime.date)`. -/
def isDates : PyVal → Bool
  | .datetime _ => true
  | .date _ => true
  | _ => false

/-- `isinstance(o, datetime)` with `datetime = datetime.datetime`. -/
def isDatetime : PyVal → Bool
  | .datetime _ => true
  | _ => false

/-- `datetime(o.year, o.month, o.day, 0, 0, 0, 0)`: promotion of a plain
date to a naive midnight datetime, as done inside the encoder. -/
def PyDate.toMidnight (d : PyDate) : PyDateTime :=
  ⟨d.year, d.month, d.day, 0, 0, 0, 0, Option.none⟩

/-- The isoformat text, with the `+00:00` → `Z` rewrite, produced by the
dates branch of the encoder for the (possibly promoted) datetime `d`. -/
def encodeDatesText (d : PyDateTime) : String :=
  String.mk (zRewriteChars d.isoChars)

/-- `isinstance(o, times)` with `times = (datetime.time,)`. -/
def isTimes : PyVal → Bool
  | .time _ => true
  | _ => false

/-- `isinstance(o, textual)` with `textual = (Decimal, UUID, DjangoPromise)`.
Django is absent here, so `DjangoPromise` is the dummy class with no
instances. -/
def isTextual : PyVal → Bool
  | .decimal _ => true
  | .uuid _ => true
  | _ => false

/-- `text_t(o)` (`str`) for the textual kinds. -/
def textualText : PyVal → String
  | .decimal x => x.text
  | .uuid u => u.str
  | _ => ""

/-- `JSONEncoder.default` from the source: first the `__json__` reducer,
then the dates branch (plain dates promoted to midnight datetimes, the
isoformat text with `+00:00` rewritten to `Z`), then times, then the
textual kinds, and finally `super().default(o)`, which raises TypeError. -/
def JSONEncoder.default (o : PyVal) : Except PyErr PyVal :=
  match getJsonMethod o with
  | Option.some r => .ok r
  | Option.none =>
    if isDates o then
      match o with
      | .datetime d => .ok (.str (encodeDatesText d))
      | .date d => .ok (.str (encodeDatesText d.toMidnight))
      | _ => .error (.typeError "unreachable")
    else if isTimes o then
      match o with
      | .time t => .ok (.str t.isoformat)
      | _ => .error (.typeError "unreachable")
    else if isTextual o then
      .ok (.str (textualText o))
    else
      .error (.typeError "Object is not JSON serializable")

/-! ### The stdlib JSON serializer (`json.dumps` with `cls=JSONEncoder`) -/

/-- Four lowercase hex digits of `n` (for `\uXXXX` escapes). -/
def hex4 (n : Nat) : List Char :=
  [Nat.digitChar (n / 4096 % 16), Nat.digitChar (n / 256 % 16),
   Nat.digitChar (n / 16 % 16), Nat.digitChar (n % 16)]

/-- JSON escaping of one character with `ensure_ascii=True` (the
default): the two-character escapes, `\uXXXX` for other control or
non-ASCII characters, and surrogate pairs beyond the BMP. -/
def escapeChar (c : Char) : List Char :=
  let n := c.toNat
  if n = 34 then ['\\', '"']
  else if n = 92 then ['\\', '\\']
  else if n = 10 then ['\\', 'n']
  else if n = 13 then ['\\', 'r']
  else if n = 9 then ['\\', 't']
  else if n = 8 then ['\\', 'b']
  else if n = 12 then ['\\', 'f']
  else if n < 32 then '\\' :: 'u' :: hex4 n
  else if n ≤ 126 then [c]
  else if n < 65536 then '\\' :: 'u' :: hex4 n
  else
    '\\' :: 'u' :: hex4 (55296 + (n - 65536) / 1024)
      ++ '\\' :: 'u' :: hex4 (56320 + (n - 65536) % 1024)

/-- The serialized form of a JSON string. -/
def jsonQuote (s : String) : String :=
  String.mk ('"' :: s.data.flatMap escapeChar ++ ['"'])

/-- Serialization of the (always textual, in this model) result of
`JSONEncoder.default`; in the source the returned object is serialized
recursively, and here `default` only ever returns strings because the
`__json__` reducer is dispatched before it. -/
def serializeDefaultResult : Except PyErr PyVal → Except PyErr String
  | .ok (.str t) => .ok (jsonQuote t)
  | .ok _ => .error (.typeError "non-string default result: outside this model")
  | .error e => .error e

mutual

/-- `json.dumps` on one value: native values directly, everything else
through `JSONEncoder.default` (a `__json__` result is serialized
recursively, exactly as the stdlib serializes the object returned by
`default`). -/
def serializeVal : PyVal → Except PyErr String
  | .none => .ok "null"
  | .bool b => .ok (if b then "true" else "false")
  | .int n => .ok (toString n)
  | .str s => .ok (jsonQuote s)
  | .list xs => do
      let body ← serializeList xs
      .ok ("[" ++ body ++ "]")
  | .dict es => do
      let body ← serializeEntries es
      .ok ("\x7b" ++ body ++ "\x7d")
  | .objJson _ p => serializeVal p
  | .bytes b => serializeDefaultResult (JSONEncoder.default (.bytes b))
  | .datetime d => serializeDefaultResult (JSONEncoder.default (.datetime d))
  | .date d => serializeDefaultResult (JSONEncoder.default (.date d))
  | .time t => serializeDefaultResult (JSONEncoder.default (.time t))
  | .decimal x => serializeDefaultResult (JSONEncoder.default (.decimal x))
  | .uuid u => serializeDefaultResult (JSONEncoder.default (.uuid u))
  | .foreignObj nm => serializeDefaultResult (JSONEncoder.default (.foreignObj nm))

/-- Array items joined by the default `", "` separator. -/
def serializeList : List PyVal → Except PyErr String
  | [] => .ok ""
  | [x] => serializeVal x
  | x :: y :: rest => do
      let hd ← serializeVal x
      let tl ← serializeList (y :: rest)
      .ok (hd ++ ", " ++ tl)

/-- Object entries: `"key": value` joined by `", "`. -/
def serializeEntries : List (String × PyVal) → Except PyErr String
  | [] => .ok ""
  | [(k, v)] => do
      let sv ← serializeVal v
      .ok (jsonQuote k ++ ": " ++ sv)
  | (k, v) :: e :: rest => do
      let sv ← serializeVal v
      let tl ← serializeEntries (e :: rest)
      .ok (jsonQuote k ++ ": " ++ sv ++ ", " ++ tl)

end

/-- `dumps(s)` from the source: `json.dumps` with `cls=JSONEncoder`
(the extra keyword plumbing does not change the produced text). -/
def dumps (v : PyVal) : Except PyErr String :=
  serializeVal v

/-! ### UTF-8 (model of `str.encode("utf-8")` / `bytes.decode("utf-8")`) -/

/-- UTF-8 bytes of one code point (written arithmetically: `/` and `%`
by powers of two in place of shifts and masks). -/
def utf8EncodeCp (n : Nat) : List Nat :=
  if n < 128 then [n]
  else if n < 2048 then [192 + n / 64, 128 + n % 64]
  else if n < 65536 then [224 + n / 4096, 128 + n / 64 % 64, 128 + n % 64]
  else [240 + n / 262144, 128 + n / 4096 % 64, 128 + n / 64 % 64, 128 + n % 64]

/-- `str.encode("utf-8")`. -/
def utf8Encode (s : String) : List Nat :=
  s.data.flatMap (fun c => utf8EncodeCp c.toNat)

/-- Is `b` a UTF-8 continuation byte? -/
def isCont (b : Nat) : Bool :=
  128 ≤ b && b < 192

/-- One step of strict UTF-8 decoding (as Python's default
`errors="strict"`): the first scalar and the remaining bytes; rejects
stray continuation bytes, overlong forms, surrogates and out-of-range
leads. -/
def utf8DecodeStep : List Nat → Option (Char × List Nat)
  | [] => Option.none
  | b :: rest =>
    if b < 128 then Option.some (Char.ofNat b, rest)
    else if b < 194 then Option.none
    else if b < 224 then
      match rest with
      | b1 :: rest1 =>
        if isCont b1 then Option.some (Char.ofNat ((b - 192) * 64 + (b1 - 128)), rest1)
        else Option.none
      | [] => Option.none
    else if b < 240 then
      match rest with
      | b1 :: b2 :: rest2 =>
        if isCont b1 && isCont b2 then
          let n := (b - 224) * 4096 + (b1 - 128) * 64 + (b2 - 128)
          if 2048 ≤ n && (n < 55296 || 57344 ≤ n) then Option.some (Char.ofNat n, rest2)
          else Option.none
        else Option.none
      | _ => Option.none
    else if b < 245 then
      match rest with
      | b1 :: b2 :: b3 :: rest3 =>
        if isCont b1 && isCont b2 && isCont b3 then
          let n := (b - 240) * 262144 + (b1 - 128) * 4096 + (b2 - 128) * 64 + (b3 - 128)
          if 65536 ≤ n && n < 1114112 then Option.some (Char.ofNat n, rest3)
          else Option.none
        else Option.none
      | _ => Option.none
    else Option.none

/-- Strict UTF-8 decoding of a whole byte list; `fuel` bounds the
number of scalars (the byte count always suffices). -/
def utf8DecodeLoop : Nat → List Nat → Option (List Char)
  | _, [] => Option.some []
  | 0, _ :: _ => Option.none
  | fuel + 1, b :: rest =>
    match utf8DecodeStep (b :: rest) with
    | Option.some (ch, rest2) => (utf8DecodeLoop fuel rest2).map (fun cs => ch :: cs)
    | Option.none => Option.none

/-- Strict UTF-8 decoding. -/
def utf8DecodeChars (l : List Nat) : Option (List Char) :=
  utf8DecodeLoop l.length l

/-- `b.decode("utf-8")`, raising UnicodeDecodeError on invalid input. -/
def pyDecodeUtf8 (b : List Nat) : Except PyErr String :=
  match utf8DecodeChars b with
  | Option.some cs => .ok (String.mk cs)
  | Option.none => .error .unicodeDecodeError

/-! ### base64 (model of `base64.b64decode`, strict alphabet) -/

/-- Value of one base64 alphabet character. -/
def b64Val (c : Char) : Option Nat :=
  let n := c.toNat
  if 65 ≤ n && n ≤ 90 then Option.some (n - 65)
  else if 97 ≤ n && n ≤ 122 then Option.some (n - 97 + 26)
  else if 48 ≤ n && n ≤ 57 then Option.some (n - 48 + 52)
  else if n = 43 then Option.some 62
  else if n = 47 then Option.some 63
  else Option.none

/-- Base64 decoding by 4-character groups with `=` padding. -/
def b64decodeChars : List Char → Option (List Nat)
  | [] => Option.some []
  | a :: b :: c :: d :: rest =>
    match b64Val a, b64Val b with
    | Option.some va, Option.some vb =>
      if d = '=' then
        if rest.isEmpty then
          if c = '=' then Option.some [va * 4 + vb / 16]
          else
            match b64Val c with
            | Option.some vc => Option.some [va * 4 + vb / 16, vb % 16 * 16 + vc / 4]
            | Option.none => Option.none
        else Option.none
      else
        match b64Val c, b64Val d with
        | Option.some vc, Option.some vd =>
          (b64decodeChars rest).map
            (fun t => (va * 4 + vb / 16) :: (vb % 16 * 16 + vc / 4) :: (vc % 4 * 64 + vd) :: t)
        | _, _ => Option.none
    | _, _ => Option.none
  | _ => Option.none

/-! ### fromisoformat (models of the stdlib parsers used by the decoders) -/

/-- Longest digit span at the head of the input. -/
def spanDigits : List Char → List Char × List Char
  | [] => ([], [])
  | c :: rest =>
    if c.isDigit then
      let p := spanDigits rest
      (c :: p.1, p.2)
    else ([], c :: rest)

/-- Numeric value of a digit list (most significant first). -/
def digitsToNat (l : List Char) : Nat :=
  l.foldl (fun a c => a * 10 + (c.toNat - 48)) 0

/-- Exactly `w` digits from the head of the input. -/
def parseDigitsN (w : Nat) (l : List Char) : Option (Nat × List Char) :=
  let taken := l.take w
  if taken.length == w && taken.all (fun c => c.isDigit) then
    Option.some (digitsToNat taken, l.drop w)
  else Option.none

/-- One expected literal character. -/
def expectChar (c : Char) : List Char → Option (List Char)
  | [] => Option.none
  | x :: rest => if x = c then Option.some rest else Option.none

/-- `HH[:MM[:SS[.fff | .ffffff]]]` clock text, as accepted by the
stdlib `fromisoformat` parsers. -/
def parseClock (l : List Char) : Option (Nat × Nat × Nat × Nat × List Char) := do
  let (h, r1) ← parseDigitsN 2 l
  match expectChar ':' r1 with
  | Option.none => pure (h, 0, 0, 0, r1)
  | Option.some r2 => do
    let (mi, r3) ← parseDigitsN 2 r2
    match expectChar ':' r3 with
    | Option.none => pure (h, mi, 0, 0, r3)
    | Option.some r4 => do
      let (se, r5) ← parseDigitsN 2 r4
      match expectChar '.' r5 with
      | Option.none => pure (h, mi, se, 0, r5)
      | Option.some r6 =>
        let p := spanDigits r6
        if p.1.length = 3 then pure (h, mi, se, digitsToNat p.1 * 1000, p.2)
        else if p.1.length = 6 then pure (h, mi, se, digitsToNat p.1, p.2)
        else Option.none

/-- Trailing `±HH:MM` UTC offset (or nothing), consuming the rest of
the input. -/
def parseIsoOffset (l : List Char) : Option (Option Int) :=
  match l with
  | [] => Option.some Option.none
  | c :: rest =>
    if c = '+' || c = '-' then
      match parseDigitsN 2 rest with
      | Option.some (h, r1) =>
        match expectChar ':' r1 with
        | Option.some r2 =>
          match parseDigitsN 2 r2 with
          | Option.some (m, r3) =>
            if r3.isEmpty && h < 24 && m < 60 then
              let total : Int := Int.ofNat (h * 60 + m)
              Option.some (Option.some (if c = '-' then -total else total))
            else Option.none
          | Option.none => Option.none
        | Option.none => Option.none
      | Option.none => Option.none
    else Option.none

/-- `datetime.datetime.fromisoformat`: `YYYY-MM-DD` optionally followed
by a one-character separator, a clock and a UTC offset (calendar
validation approximated by `day ≤ 31`). -/
def fromisoDT (s : String) : Option PyDateTime := do
  let (y, r1) ← parseDigitsN 4 s.data
  let r2 ← expectChar '-' r1
  let (mo, r3) ← parseDigitsN 2 r2
  let r4 ← expectChar '-' r3
  let (dy, r5) ← parseDigitsN 2 r4
  if 1 ≤ mo ∧ mo ≤ 12 ∧ 1 ≤ dy ∧ dy ≤ 31 then
    match r5 with
    | [] => pure ⟨y, mo, dy, 0, 0, 0, 0, Option.none⟩
    | _sep :: r6 => do
      let (h, mi, se, us, r7) ← parseClock r6
      let tz ← parseIsoOffset r7
      if h < 24 ∧ mi < 60 ∧ se < 60 then pure ⟨y, mo, dy, h, mi, se, us, tz⟩
      else Option.none
  else Option.none

/-- `datetime.time.fromisoformat`. -/
def fromisoTime (s : String) : Option PyTime := do
  let (h, mi, se, us, r1) ← parseClock s.data
  let tz ← parseIsoOffset r1
  if h < 24 ∧ mi < 60 ∧ se < 60 then pure ⟨h, mi, se, us, tz⟩
  else Option.none

/-! ### Decimal and UUID constructors used by the decoders -/

/-- Well-formed plain decimal literal: optional `-` sign, a nonempty
integer part with no superfluous leading zero, optionally a point and a
nonempty fraction part.  On this domain `str(Decimal(s)) = s`, so the
stored text is the literal itself; exotic Decimal inputs (exponents,
specials, `+` signs) are outside this model. -/
def decimalLitOk (s : String) : Bool :=
  let l := match s.data with
           | c :: rest => if c = '-' then rest else s.data
           | [] => []
  let p := spanDigits l
  (decide (p.1 ≠ []))
    && (decide (p.1.head? = Option.some '0' → p.1.length = 1))
    && (match p.2 with
        | [] => true
        | c :: rest =>
          let q := spanDigits rest
          c = '.' && decide (q.1 ≠ []) && q.2.isEmpty)

/-- `Decimal(s)`: InvalidOperation outside the modelled literal domain. -/
def pyDecimal (s : String) : Except PyErr PyVal :=
  if decimalLitOk s then .ok (.decimal ⟨s⟩) else .error .invalidOperation

/-- Lowercase an ASCII hex character. -/
def lowerHexChar (c : Char) : Char :=
  if 65 ≤ c.toNat && c.toNat ≤ 70 then Char.ofNat (c.toNat + 32) else c

/-- Is this a (lowercase) hex digit? -/
def isLowerHex (c : Char) : Bool :=
  c.isDigit || (97 ≤ c.toNat && c.toNat ≤ 102)

/-- `uuid.UUID(hex=h)`: dashes are stripped, 32 hex digits are required,
and the stored form is lowercase. -/
def pyUUIDFromHex (h : String) : Except PyErr PyVal :=
  let cleaned := (h.data.filter (fun c => c ≠ '-')).map lowerHexChar
  if cleaned.length == 32 && cleaned.all isLowerHex then
    .ok (.uuid ⟨String.mk cleaned⟩)
  else .error (.valueError "badly formed hexadecimal UUID string" [])

/-! ### The registries (`_encoders`, `_decoders`, `register_type`) -/

/-- One decoder: a function from the envelope's `__value__` to a value. -/
def DecoderT : Type := PyVal → Except PyErr PyVal

/-- One encoder entry: the marker and the encode function. -/
def EncoderT : Type := String × (PyVal → PyVal)

/-- The module's registration state: `_encoders` (keyed by the name of
the registered type) and `_decoders` (keyed by the marker). -/
structure Registries where
  encoders : List (String × EncoderT)
  decoders : List (String × DecoderT)

/-- `register_type(t, marker, encoder, decoder)`: adds to both tables.
Dictionary assignment is modelled by consing, with first-match lookup. -/
def register_type (st : Registries) (t marker : String)
    (enc : PyVal → PyVal) (dec : DecoderT) : Registries :=
  ⟨(t, (marker, enc)) :: st.encoders, (marker, dec) :: st.decoders⟩

/-- `_decoders["bytes"]`: `lambda o: o.encode("utf-8")`. -/
def bytesDecoder : DecoderT := fun v =>
  match v with
  | .str s => .ok (.bytes (utf8Encode s))
  | _ => .error (.typeError "o.encode: o is not a str")

/-- `_decoders["base64"]`: `lambda o: base64.b64decode(o.encode("utf-8"))`. -/
def base64Decoder : DecoderT := fun v =>
  match v with
  | .str s =>
    match b64decodeChars s.data with
    | Option.some bs => .ok (.bytes bs)
    | Option.none => .error (.valueError "Invalid base64-encoded string" [])
  | _ => .error (.typeError "o.encode: o is not a str")

/-- The registered "datetime" decoder: `datetime.datetime.fromisoformat`. -/
def datetimeDecoder : DecoderT := fun v =>
  match v with
  | .str s =>
    match fromisoDT s with
    | Option.some d => .ok (.datetime d)
    | Option.none => .error (.valueError "Invalid isoformat string" [])
  | _ => .error (.typeError "fromisoformat: argument must be str")

/-- The registered "date" decoder:
`lambda o: datetime.datetime.fromisoformat(o).date()`. -/
def dateDecoder : DecoderT := fun v =>
  match v with
  | .str s =>
    match fromisoDT s with
    | Option.some d => .ok (.date ⟨d.year, d.month, d.day⟩)
    | Option.none => .error (.valueError "Invalid isoformat string" [])
  | _ => .error (.typeError "fromisoformat: argument must be str")

/-- The registered "time" decoder: `datetime.time.fromisoformat`. -/
def timeDecoder : DecoderT := fun v =>
  match v with
  | .str s =>
    match fromisoTime s with
    | Option.some t => .ok (.time t)
    | Option.none => .error (.valueError "Invalid isoformat string" [])
  | _ => .error (.typeError "fromisoformat: argument must be str")

/-- The registered "decimal" decoder: `Decimal`. -/
def decimalDecoder : DecoderT := fun v =>
  match v with
  | .str s => pyDecimal s
  | _ => .error .invalidOperation

/-- The registered "uuid" decoder: `lambda o: uuid.UUID(**o)` — the
decoded `__value__` is a plain mapping (its key set `{hex}` is not the
reserved pair, so the object hook leaves it unchanged) and is splatted
into keyword arguments. -/
def uuidDecoder : DecoderT := fun v =>
  match v with
  | .dict [(k, .str h)] =>
    if k = "hex" then pyUUIDFromHex h
    else .error (.typeError "unexpected keyword argument")
  | _ => .error (.typeError "uuid.UUID keyword arguments")

/-- Encode-side entries registered by the module (never read by the
encoder class).  Total stubs of the registered callables; the tables'
values on the encode side are write-only in the source. -/
def isoformatEncoder : PyVal → PyVal := fun v =>
  match v with
  | .datetime d => .str d.isoformat
  | .date d => .str d.isoformat
  | .time t => .str t.isoformat
  | _ => .str ""

/-- `str` as a registered encoder. -/
def strEncoder : PyVal → PyVal := fun v =>
  match v with
  | .decimal x => .str x.text
  | .uuid u => .str u.str
  | _ => .str ""

/-- `lambda o: {"hex": o.hex}` as the registered uuid encoder. -/
def uuidHexEncoder : PyVal → PyVal := fun v =>
  match v with
  | .uuid u => .dict [("hex", .str u.hex)]
  | _ => .dict []

/-- The two decoders pre-seeded in the `_decoders` literal. -/
def baseRegistries : Registries :=
  ⟨[], [("bytes", bytesDecoder), ("base64", base64Decoder)]⟩

/-- Module initialisation: the five `register_type` calls in source
order.  The first call passes the `datetime` *module* as the type (at
module level the name `datetime` is the import, not the class); the slip
is invisible because the encode table is never read, and the key is
recorded here as "datetime module". -/
def initRegistries : Registries :=
  register_type
    (register_type
      (register_type
        (register_type
          (register_type baseRegistries
            "datetime module" "datetime" isoformatEncoder datetimeDecoder)
          "datetime.date" "date" isoformatEncoder dateDecoder)
        "datetime.time" "time" isoformatEncoder timeDecoder)
      "Decimal" "decimal" strEncoder decimalDecoder)
    "UUID" "uuid" uuidHexEncoder uuidDecoder

/-- The module-level `_decoders` table after initialisation. -/
def defaultDecoders : List (String × DecoderT) :=
  initRegistries.decoders

/-! ### `object_hook` -/

/-- `d.get(k)` on a string-keyed dict. -/
def dictGet (o : List (String × PyVal)) (k : String) : Option PyVal :=
  (List.lookup k o)

/-- `_decoders.get(x)`: a non-string key is simply absent. -/
def decodersGet (decs : List (String × DecoderT)) : PyVal → Option DecoderT
  | .str s => List.lookup s decs
  | _ => Option.none

/-- Python set equality of `o.keys()` with a target set. -/
def keySetEq (ks target : List String) : Bool :=
  ks.all (fun k => target.contains k) && target.all (fun k => ks.contains k)

/-- `object_hook` parametrised by the decoder table: on the reserved key
set, look the marker up and either apply the decoder or raise
`ValueError("Unsupported type", type, o)`; otherwise return the mapping
unchanged. -/
def object_hookWith (decs : List (String × DecoderT))
    (o : List (String × PyVal)) : Except PyErr PyVal :=
  if keySetEq (o.map Prod.fst) ["__type__", "__value__"] then
    match dictGet o "__type__" with
    | Option.none => .error (.keyError "__type__")
    | Option.some tv =>
      match decodersGet decs tv with
      | Option.some decoder =>
        match dictGet o "__value__" with
        | Option.none => .error (.keyError "__value__")
        | Option.some vv => decoder vv
      | Option.none => .error (.valueError "Unsupported type" o)
  else .ok (.dict o)

/-- `object_hook` from the source (over the module's `_decoders`). -/
def object_hook (o : List (String × PyVal)) : Except PyErr PyVal :=
  object_hookWith defaultDecoders o

/-! ### The stdlib JSON parser (model of `json.loads` with the hook) -/

/-- JSON whitespace. -/
def isWsChar (c : Char) : Bool :=
  c.toNat = 32 || c.toNat = 9 || c.toNat = 10 || c.toNat = 13

/-- Skip leading JSON whitespace. -/
def skipWs : List Char → List Char
  | [] => []
  | c :: rest => if isWsChar c then skipWs rest else c :: rest

/-- Match an expected literal character sequence. -/
def expectLit : List Char → List Char → Option (List Char)
  | [], l => Option.some l
  | _ :: _, [] => Option.none
  | c :: cs, x :: xs => if x = c then expectLit cs xs else Option.none

/-- Value of one hex digit. -/
def hexDigitVal (c : Char) : Option Nat :=
  let n := c.toNat
  if 48 ≤ n && n ≤ 57 then Option.some (n - 48)
  else if 97 ≤ n && n ≤ 102 then Option.some (n - 97 + 10)
  else if 65 ≤ n && n ≤ 70 then Option.some (n - 65 + 10)
  else Option.none

/-- Four hex digits. -/
def parseHex4 (l : List Char) : Option (Nat × List Char) :=
  match l with
  | a :: b :: c :: d :: rest =>
    match hexDigitVal a, hexDigitVal b, hexDigitVal c, hexDigitVal d with
    | Option.some va, Option.some vb, Option.some vc, Option.some vd =>
      Option.some (((va * 16 + vb) * 16 + vc) * 16 + vd, rest)
    | _, _, _, _ => Option.none
  | _ => Option.none

/-- One string escape (the characters after the backslash).  Surrogate
pairs in `\uXXXX` escapes are combined; a lone surrogate, which Python
would keep as a surrogate code unit, has no scalar representation here
and is rejected. -/
def parseEscape : List Char → Option (Char × List Char)
  | [] => Option.none
  | e :: rest =>
    let n := e.toNat
    if n = 34 then Option.some ('"', rest)
    else if n = 92 then Option.some ('\\', rest)
    else if n = 47 then Option.some ('/', rest)
    else if n = 98 then Option.some ('\x08', rest)
    else if n = 102 then Option.some ('\x0C', rest)
    else if n = 110 then Option.some ('\n', rest)
    else if n = 114 then Option.some ('\r', rest)
    else if n = 116 then Option.some ('\t', rest)
    else if n = 117 then
      match parseHex4 rest with
      | Option.some (u, r1) =>
        if 55296 ≤ u ∧ u < 56320 then
          match r1 with
          | '\\' :: 'u' :: r2 =>
            match parseHex4 r2 with
            | Option.some (u2, r3) =>
              if 56320 ≤ u2 ∧ u2 < 57344 then
                Option.some (Char.ofNat (65536 + (u - 55296) * 1024 + (u2 - 56320)), r3)
              else Option.none
            | Option.none => Option.none
          | _ => Option.none
        else if 56320 ≤ u ∧ u < 57344 then Option.none
        else Option.some (Char.ofNat u, r1)
      | Option.none => Option.none
    else Option.none

/-- Body of a JSON string after the opening quote; `fuel` bounds the
recursion (`length + 1` always suffices). -/
def parseStringBody : Nat → List Char → Except PyErr (List Char × List Char)
  | 0, _ => .error .decodeError
  | fuel + 1, l =>
    match l with
    | [] => .error .decodeError
    | c :: rest =>
      if c.toNat = 34 then .ok ([], rest)
      else if c.toNat = 92 then
        match parseEscape rest with
        | Option.some (ec, r1) =>
          match parseStringBody fuel r1 with
          | .ok (cs, r2) => .ok (ec :: cs, r2)
          | .error e => .error e
        | Option.none => .error .decodeError
      else if c.toNat < 32 then .error .decodeError
      else
        match parseStringBody fuel rest with
        | .ok (cs, r2) => .ok (c :: cs, r2)
        | .error e => .error e

/-- A JSON number restricted to integers (a following `.`, `e` or `E`
would start a float, which is outside this model). -/
def parseNumber (l : List Char) : Except PyErr (PyVal × List Char) :=
  let sl := match l with
            | c :: rest => if c = '-' then (true, rest) else (false, l)
            | [] => (false, l)
  let p := spanDigits sl.2
  if p.1.isEmpty then .error .decodeError
  else if 1 < p.1.length ∧ p.1.head? = Option.some '0' then .error .decodeError
  else
    let val : Int := if sl.1 then -(digitsToNat p.1 : Int) else (digitsToNat p.1 : Int)
    match p.2 with
    | c :: _ =>
      if c = '.' ∨ c = 'e' ∨ c = 'E' then .error .decodeError
      else .ok (.int val, p.2)
    | [] => .ok (.int val, p.2)

/-- Python dict assignment: a repeated key replaces the value in place,
a new key is appended. -/
def dictInsert : List (String × PyVal) → String → PyVal → List (String × PyVal)
  | [], k, v => [(k, v)]
  | (k0, v0) :: rest, k, v =>
    if k0 = k then (k0, v) :: rest else (k0, v0) :: dictInsert rest k v

/-- Build a dict from parsed pairs (later duplicates win). -/
def dictFromPairs (ps : List (String × PyVal)) : List (String × PyVal) :=
  ps.foldl (fun acc p => dictInsert acc p.1 p.2) []

mutual

/-- One JSON value.  `fuel` bounds the nesting recursion
(`2 * length + 4` always suffices for a whole document).  Every parsed
object literal goes through `object_hook`, as `json.loads(s,
object_hook=object_hook)` does. -/
def parseValue : Nat → List Char → Except PyErr (PyVal × List Char)
  | 0, _ => .error .decodeError
  | fuel + 1, l =>
    match skipWs l with
    | [] => .error .decodeError
    | c :: rest =>
      if c.toNat = 34 then
        match parseStringBody (rest.length + 1) rest with
        | .ok (cs, r) => .ok (.str (String.mk cs), r)
        | .error e => .error e
      else if c = '[' then
        let l2 := skipWs rest
        match l2 with
        | [] => .error .decodeError
        | x :: r2 =>
          if x = ']' then .ok (.list [], r2)
          else
            match parseArrayItems fuel l2 with
            | .ok (vs, r3) => .ok (.list vs, r3)
            | .error e => .error e
      else if c = '\x7b' then
        let l2 := skipWs rest
        match l2 with
        | [] => .error .decodeError
        | x :: r2 =>
          if x = '\x7d' then
            match object_hook [] with
            | .ok v => .ok (v, r2)
            | .error e => .error e
          else
            match parseObjectItems fuel l2 with
            | .ok (ps, r3) =>
              match object_hook (dictFromPairs ps) with
              | .ok v => .ok (v, r3)
              | .error e => .error e
            | .error e => .error e
      else if c = 'n' then
        match expectLit ['u', 'l', 'l'] rest with
        | Option.some r => .ok (.none, r)
        | Option.none => .error .decodeError
      else if c = 't' then
        match expectLit ['r', 'u', 'e'] rest with
        | Option.some r => .ok (.bool true, r)
        | Option.none => .error .decodeError
      else if c = 'f' then
        match expectLit ['a', 'l', 's', 'e'] rest with
        | Option.some r => .ok (.bool false, r)
        | Option.none => .error .decodeError
      else parseNumber (c :: rest)

/-- Array items after `[`: values separated by `,`, closed by `]`. -/
def parseArrayItems : Nat → List Char → Except PyErr (List PyVal × List Char)
  | 0, _ => .error .decodeError
  | fuel + 1, l =>
    match parseValue fuel l with
    | .error e => .error e
    | .ok (v, r1) =>
      match skipWs r1 with
      | [] => .error .decodeError
      | x :: r2 =>
        if x = ',' then
          match parseArrayItems fuel r2 with
          | .ok (vs, r3) => .ok (v :: vs, r3)
          | .error e => .error e
        else if x = ']' then .ok ([v], r2)
        else .error .decodeError

/-- Object members after an opening brace: `"key": value` pairs
separated by `,`, closed by a closing brace. -/
def parseObjectItems : Nat → List Char → Except PyErr (List (String × PyVal) × List Char)
  | 0, _ => .error .decodeError
  | fuel + 1, l =>
    match skipWs l with
    | [] => .error .decodeError
    | x :: r1 =>
      if x.toNat = 34 then
        match parseStringBody (r1.length + 1) r1 with
        | .error e => .error e
        | .ok (kcs, r2) =>
          match skipWs r2 with
          | [] => .error .decodeError
          | y :: r3 =>
            if y = ':' then
              match parseValue fuel r3 with
              | .error e => .error e
              | .ok (v, r4) =>
                match skipWs r4 with
                | [] => .error .decodeError
                | z :: r5 =>
                  if z = ',' then
                    match parseObjectItems fuel r5 with
                    | .ok (ps, r6) => .ok ((String.mk kcs, v) :: ps, r6)
                    | .error e => .error e
                  else if z = '\x7d' then .ok ([(String.mk kcs, v)], r5)
                  else .error .decodeError
            else .error .decodeError
      else .error .decodeError

end

/-- `json.loads` on text: parse one document, allowing only trailing
whitespace. -/
def jsonLoadsText (s : String) : Except PyErr PyVal :=
  match parseValue (2 * s.length + 4) s.data with
  | .ok (v, rest) => if (skipWs rest).isEmpty then .ok v else .error .decodeError
  | .error e => .error e

/-! ### `loads` (input normalisation and parsing) -/

/-- The input forms `loads` accepts. -/
inductive LoadsInput where
  | str (s : String) : LoadsInput
  | bytes (b : List Nat) : LoadsInput
  | bytearray (b : List Nat) : LoadsInput
  | memoryview (b : List Nat) : LoadsInput

/-- What reaches the underlying `_loads` after the isinstance chain. -/
inductive JsonInput where
  | text (s : String) : JsonInput
  | raw (b : List Nat) : JsonInput

/-- The isinstance chain at the top of `loads`: a memoryview is copied
to bytes and decoded, a bytearray is decoded, bytes are decoded only
when `decode_bytes` is set, text passes through. -/
def loadsNormalize (s : LoadsInput) (decode_bytes : Bool) : Except PyErr JsonInput :=
  match s with
  | .memoryview b => (pyDecodeUtf8 b).map JsonInput.text
  | .bytearray b => (pyDecodeUtf8 b).map JsonInput.text
  | .bytes b =>
    if decode_bytes then (pyDecodeUtf8 b).map JsonInput.text else .ok (.raw b)
  | .str s => .ok (.text s)

/-- The underlying `_loads = json.loads`: stdlib `json.loads` itself
accepts raw bytes, decoding them via `detect_encoding`; modelled for
the UTF-8 case. -/
def jsonLoads : JsonInput → Except PyErr PyVal
  | .text s => jsonLoadsText s
  | .raw b => (pyDecodeUtf8 b).bind jsonLoadsText

/-- `loads(s, decode_bytes=...)` from the source (with the module's
default `object_hook`). -/
def loads (s : LoadsInput) (decode_bytes : Bool) : Except PyErr PyVal :=
  (loadsNormalize s decode_bytes).bind jsonLoads

/-! ### Helper lemmas: digits and padding -/

theorem digitChar_range : ∀ m, m < 10 →
    48 ≤ (Nat.digitChar m).toNat ∧ (Nat.digitChar m).toNat ≤ 57 := by decide

theorem digitChar_eq_zero : ∀ m, m < 10 → Nat.digitChar m = '0' → m = 0 := by decide

theorem mem_natDigitsAux_range :
    ∀ (f n : Nat) (c : Char), c ∈ natDigitsAux f n → 48 ≤ c.toNat ∧ c.toNat ≤ 57 := by
  intro f
  induction f with
  | zero => intro n c h; simp [natDigitsAux] at h
  | succ f ih =>
    intro n c h
    simp only [natDigitsAux] at h
    by_cases hn : n = 0
    · rw [if_pos hn] at h; simp at h
    · rw [if_neg hn] at h
      rcases List.mem_append.mp h with h1 | h2
      · exact ih _ _ h1
      · simp only [List.mem_singleton] at h2
        subst h2
        exact digitChar_range _ (Nat.mod_lt _ (by omega))

theorem mem_natDigits_range (n : Nat) (c : Char) (h : c ∈ natDigits n) :
    48 ≤ c.toNat ∧ c.toNat ≤ 57 := by
  unfold natDigits at h
  by_cases hn : n = 0
  · rw [if_pos hn] at h; simp only [List.mem_singleton] at h; subst h; decide
  · rw [if_neg hn] at h; exact mem_natDigitsAux_range _ _ _ h

theorem mem_padNum_range (w n : Nat) (c : Char) (h : c ∈ padNum w n) :
    48 ≤ c.toNat ∧ c.toNat ≤ 57 := by
  unfold padNum at h
  rcases List.mem_append.mp h with h1 | h2
  · have := List.eq_of_mem_replicate h1; subst this; decide
  · exact mem_natDigits_range _ _ h2

theorem padNum_two_eq : ∀ n, n < 100 →
    padNum 2 n = [Nat.digitChar (n / 10), Nat.digitChar (n % 10)] := by decide

/-! ### Helper lemmas: the `+00:00` suffix test -/

theorem pyEndsWith_iff (l sfx : List Char) :
    pyEndsWith l sfx = true ↔ l.drop (l.length - sfx.length) = sfx := by
  simp [pyEndsWith]

theorem pyEndsWith_append (base sfx : List Char) :
    pyEndsWith (base ++ sfx) sfx = true := by
  rw [pyEndsWith_iff]
  have hl : (base ++ sfx).length - sfx.length = base.length := by
    simp [List.length_append]
  rw [hl, List.drop_left]

theorem pyEndsWith_plus_false (l : List Char) (h : '+' ∉ l) :
    pyEndsWith l plusZeroSuffix = false := by
  cases hb : pyEndsWith l plusZeroSuffix
  · rfl
  · exfalso
    rw [pyEndsWith_iff] at hb
    apply h
    have hp : '+' ∈ plusZeroSuffix := by decide
    rw [← hb] at hp
    exact List.drop_subset _ _ hp

theorem offsetChars_zero : offsetChars (Option.some 0) = plusZeroSuffix := by decide

theorem offsetChars_length (k : Int) (hk : k.natAbs < 1440) :
    (offsetChars (Option.some k)).length = 6 := by
  simp only [offsetChars]
  have h1 : k.natAbs / 60 < 100 := by omega
  have h2 : k.natAbs % 60 < 100 := by omega
  rw [padNum_two_eq _ h1, padNum_two_eq _ h2]
  by_cases hneg : k < 0
  · rw [if_pos hneg]; simp
  · rw [if_neg hneg]; simp

theorem offsetChars_ne_plusZero (k : Int) (hk : k.natAbs < 1440) (h0 : k ≠ 0) :
    offsetChars (Option.some k) ≠ plusZeroSuffix := by
  simp only [offsetChars]
  have h1 : k.natAbs / 60 < 100 := by omega
  have h2 : k.natAbs % 60 < 100 := by omega
  rw [padNum_two_eq _ h1, padNum_two_eq _ h2]
  by_cases hneg : k < 0
  · rw [if_pos hneg]
    intro he
    have := congrArg List.head? he
    simp [plusZeroSuffix] at this
  · rw [if_neg hneg]
    intro he
    simp only [plusZeroSuffix, List.cons_append, List.nil_append, List.cons.injEq,
      List.singleton_append] at he
    obtain ⟨-, e1, e2, -, e3, e4, -⟩ := he
    have d1 := digitChar_eq_zero _ (by omega) e1
    have d2 := digitChar_eq_zero _ (by omega) e2
    have d3 := digitChar_eq_zero _ (by omega) e3
    have d4 := digitChar_eq_zero _ (by omega) e4
    omega

theorem mem_isoBaseChars (d : PyDateTime) (c : Char) (h : c ∈ d.isoBaseChars) :
    (48 ≤ c.toNat ∧ c.toNat ≤ 57) ∨ c = '-' ∨ c = 'T' ∨ c = ':' ∨ c = '.' := by
  unfold PyDateTime.isoBaseChars at h
  by_cases hm : d.microsecond = 0
  · rw [if_pos hm] at h
    simp only [List.mem_append, List.mem_singleton, List.mem_cons, List.cons_append,
      List.nil_append, List.append_nil, List.not_mem_nil, or_false, or_assoc] at h
    rcases h with h|h|h|h|h|h|h|h|h|h|h <;>
      first
        | exact Or.inl (mem_padNum_range _ _ _ h)
        | (subst h; simp)
  · rw [if_neg hm] at h
    simp only [List.mem_append, List.mem_singleton, List.mem_cons, List.cons_append,
      List.nil_append, List.append_nil, List.not_mem_nil, or_false, or_assoc] at h
    rcases h with h|h|h|h|h|h|h|h|h|h|h|h|h <;>
      first
        | exact Or.inl (mem_padNum_range _ _ _ h)
        | (subst h; simp)

theorem plus_not_mem_isoBaseChars (d : PyDateTime) : '+' ∉ d.isoBaseChars := by
  intro h
  rcases mem_isoBaseChars d '+' h with hr | h | h | h | h
  · revert hr; decide
  all_goals exact absurd h (by decide)

theorem plusZeroSuffix_length : plusZeroSuffix.length = 6 := by decide

theorem isoChars_endsWith_iff (d : PyDateTime)
    (hb : ∀ k, d.tz = Option.some k → k.natAbs < 1440) :
    (pyEndsWith d.isoChars plusZeroSuffix = true ↔ d.tz = Option.some 0) := by
  unfold PyDateTime.isoChars
  cases htz : d.tz with
  | none =>
    simp only [offsetChars, List.append_nil]
    rw [pyEndsWith_plus_false _ (plus_not_mem_isoBaseChars d)]
    simp
  | some k =>
    have hk := hb k htz
    by_cases h0 : k = 0
    · subst h0
      rw [offsetChars_zero, pyEndsWith_append]
      simp
    · have hlen := offsetChars_length k hk
      cases hb2 : pyEndsWith (d.isoBaseChars ++ offsetChars (Option.some k)) plusZeroSuffix
      · simp only [Bool.false_eq_true, false_iff]
        intro he
        injection he with he
        exact h0 he
      · exfalso
        rw [pyEndsWith_iff] at hb2
        have hdl : (d.isoBaseChars ++ offsetChars (Option.some k)).length
            - plusZeroSuffix.length = d.isoBaseChars.length := by
          simp [List.length_append, hlen, plusZeroSuffix_length]
        rw [hdl, List.drop_left] at hb2
        exact offsetChars_ne_plusZero k hk h0 hb2

theorem zRewriteChars_iso (d : PyDateTime)
    (hb : ∀ k, d.tz = Option.some k → k.natAbs < 1440) :
    zRewriteChars d.isoChars
      = if d.tz = Option.some 0 then d.isoBaseChars ++ ['Z'] else d.isoChars := by
  unfold zRewriteChars
  by_cases h0 : d.tz = Option.some 0
  · rw [if_pos ((isoChars_endsWith_iff d hb).mpr h0), if_pos h0]
    have hiso : d.isoChars = d.isoBaseChars ++ plusZeroSuffix := by
      unfold PyDateTime.isoChars
      rw [h0, offsetChars_zero]
    rw [hiso]
    have hl : (d.isoBaseChars ++ plusZeroSuffix).length - 6 = d.isoBaseChars.length := by
      simp [List.length_append, plusZeroSuffix_length]
    rw [hl, List.take_left]
  · have hew : pyEndsWith d.isoChars plusZeroSuffix = false := by
      cases hb2 : pyEndsWith d.isoChars plusZeroSuffix
      · rfl
      · exact absurd ((isoChars_endsWith_iff d hb).mp hb2) h0
    rw [hew, if_neg h0]
    simp

/-- C6: for every datetime (offsets under 24 h, as Python enforces), the
isoformat text ends in `+00:00` exactly when the value is UTC-offset
zero, and the encoder emits the text with that trailing `+00:00`
replaced by the single character `Z`, leaving every other representation
unmodified. -/
theorem claim6_utc_z_suffix (d : PyDateTime)
    (hb : ∀ k, d.tz = Option.some k → k.natAbs < 1440) :
    (pyEndsWith d.isoChars plusZeroSuffix = true ↔ d.tz = Option.some 0)
    ∧ JSONEncoder.default (.datetime d)
      = .ok (.str (String.mk (if d.tz = Option.some 0
          then d.isoBaseChars ++ ['Z'] else d.isoChars))) := by
  refine ⟨isoChars_endsWith_iff d hb, ?_⟩
  show Except.ok (PyVal.str (encodeDatesText d)) = _
  rw [encodeDatesText, zRewriteChars_iso d hb]

/-- Witness for C6 at the datetime 2024-01-02T03:04:05+00:00. -/
theorem claim6_utc_z_suffix_witness :
    (∀ k : Int, (⟨2024, 1, 2, 3, 4, 5, 0, Option.some 0⟩ : PyDateTime).tz
        = Option.some k → k.natAbs < 1440)
    ∧ ((pyEndsWith (⟨2024, 1, 2, 3, 4, 5, 0, Option.some 0⟩ : PyDateTime).isoChars
          plusZeroSuffix = true
        ↔ (⟨2024, 1, 2, 3, 4, 5, 0, Option.some 0⟩ : PyDateTime).tz = Option.some 0)
      ∧ JSONEncoder.default (.datetime ⟨2024, 1, 2, 3, 4, 5, 0, Option.some 0⟩)
        = .ok (.str (String.mk
            (if (⟨2024, 1, 2, 3, 4, 5, 0, Option.some 0⟩ : PyDateTime).tz = Option.some 0
             then (⟨2024, 1, 2, 3, 4, 5, 0, Option.some 0⟩ : PyDateTime).isoBaseChars ++ ['Z']
             else (⟨2024, 1, 2, 3, 4, 5, 0, Option.some 0⟩ : PyDateTime).isoChars)))) :=
  ⟨fun k hk => by simp at hk; omega,
   claim6_utc_z_suffix ⟨2024, 1, 2, 3, 4, 5, 0, Option.some 0⟩
     (fun k hk => by simp at hk; omega)⟩

/-! ### Helper lemmas: parsing back a serialized safe string -/

/-- Characters that survive JSON escaping unchanged: printable ASCII
other than the quote and the backslash. -/
def safeChar (c : Char) : Bool :=
  decide (32 ≤ c.toNat ∧ c.toNat ≤ 126 ∧ c.toNat ≠ 34 ∧ c.toNat ≠ 92)

theorem safeChar_iff (c : Char) :
    safeChar c = true ↔ 32 ≤ c.toNat ∧ c.toNat ≤ 126 ∧ c.toNat ≠ 34 ∧ c.toNat ≠ 92 := by
  simp [safeChar]

theorem escapeChar_safe (c : Char) (h : safeChar c = true) : escapeChar c = [c] := by
  obtain ⟨h1, h2, h3, h4⟩ := (safeChar_iff c).mp h
  simp only [escapeChar]
  rw [if_neg h3, if_neg h4, if_neg (by omega : ¬ c.toNat = 10),
    if_neg (by omega : ¬ c.toNat = 13), if_neg (by omega : ¬ c.toNat = 9),
    if_neg (by omega : ¬ c.toNat = 8), if_neg (by omega : ¬ c.toNat = 12),
    if_neg (by omega : ¬ c.toNat < 32), if_pos h2]

theorem flatMap_escape_safe (cs : List Char) (h : ∀ c ∈ cs, safeChar c = true) :
    cs.flatMap escapeChar = cs := by
  induction cs with
  | nil => rfl
  | cons c cs ih =>
    simp only [List.flatMap_cons]
    rw [escapeChar_safe c (h c (by simp)), ih (fun x hx => h x (by simp [hx]))]
    simp

theorem skipWs_not_ws (c : Char) (l : List Char) (h : isWsChar c = false) :
    skipWs (c :: l) = c :: l := by
  simp [skipWs, h]

theorem parseStringBody_safe :
    ∀ (cs : List Char) (fuel : Nat) (r : List Char), (∀ c ∈ cs, safeChar c = true) →
      cs.length < fuel →
      parseStringBody fuel (cs ++ '"' :: r) = .ok (cs, r) := by
  intro cs
  induction cs with
  | nil =>
    intro fuel r _ hf
    cases fuel with
    | zero => omega
    | succ f =>
      simp [parseStringBody]
  | cons c cs ih =>
    intro fuel r h hf
    cases fuel with
    | zero => simp at hf
    | succ f =>
      obtain ⟨h1, h2, h3, h4⟩ := (safeChar_iff c).mp (h c (by simp))
      simp only [List.cons_append, parseStringBody]
      rw [if_neg h3, if_neg h4, if_neg (by omega : ¬ c.toNat < 32)]
      rw [ih f r (fun x hx => h x (List.mem_cons_of_mem _ hx)) (by simp at hf; omega)]

theorem parseValue_quoted (f : Nat) (cs r2 : List Char)
    (h : ∀ c ∈ cs, safeChar c = true) :
    parseValue (f + 1) ('"' :: (cs ++ '"' :: r2)) = .ok (.str (String.mk cs), r2) := by
  have hred : parseValue (f + 1) ('"' :: (cs ++ '"' :: r2))
      = (match parseStringBody ((cs ++ '"' :: r2).length + 1) (cs ++ '"' :: r2) with
         | Except.ok (cs2, r) => Except.ok (PyVal.str (String.mk cs2), r)
         | Except.error e => Except.error e) := rfl
  rw [hred, parseStringBody_safe cs ((cs ++ '"' :: r2).length + 1) r2 h (by simp; omega)]

theorem jsonLoadsText_quote (s : String) (h : ∀ c ∈ s.data, safeChar c = true) :
    jsonLoadsText (jsonQuote s) = .ok (.str s) := by
  have hq : jsonQuote s = String.mk ('"' :: (s.data ++ ['"'])) := by
    unfold jsonQuote
    rw [flatMap_escape_safe s.data h, List.cons_append]
  rw [hq]
  unfold jsonLoadsText
  have hdata : (String.mk ('"' :: (s.data ++ ['"']))).data = '"' :: (s.data ++ ['"']) := rfl
  have hlen : (String.mk ('"' :: (s.data ++ ['"']))).length = s.data.length + 2 := by
    show ('"' :: (s.data ++ ['"'])).length = _
    simp
  rw [hdata, hlen]
  have harith : 2 * (s.data.length + 2) + 4 = (2 * s.data.length + 7) + 1 := by omega
  rw [harith, parseValue_quoted _ _ _ h]
  have hmk : String.mk s.data = s := rfl
  simp [skipWs, hmk]

theorem safe_of_digit_range (c : Char) (h1 : 48 ≤ c.toNat) (h2 : c.toNat ≤ 57) :
    safeChar c = true := by
  rw [safeChar_iff]
  omega

theorem safe_dash : safeChar '-' = true := by decide
theorem safe_colon : safeChar ':' = true := by decide
theorem safe_T : safeChar 'T' = true := by decide
theorem safe_dot : safeChar '.' = true := by decide
theorem safe_plus : safeChar '+' = true := by decide
theorem safe_Z : safeChar 'Z' = true := by decide

theorem mem_offsetChars (tz : Option Int) (c : Char) (h : c ∈ offsetChars tz) :
    (48 ≤ c.toNat ∧ c.toNat ≤ 57) ∨ c = '+' ∨ c = '-' ∨ c = ':' := by
  cases tz with
  | none => simp [offsetChars] at h
  | some k =>
    simp only [offsetChars] at h
    by_cases hneg : k < 0
    · rw [if_pos hneg] at h
      simp only [List.mem_append, List.mem_singleton, List.mem_cons, List.cons_append,
        List.nil_append, List.not_mem_nil, or_false, false_or, or_assoc] at h
      rcases h with h|h|h|h <;>
        first
          | exact Or.inl (mem_padNum_range _ _ _ h)
          | (subst h; simp)
    · rw [if_neg hneg] at h
      simp only [List.mem_append, List.mem_singleton, List.mem_cons, List.cons_append,
        List.nil_append, List.not_mem_nil, or_false, false_or, or_assoc] at h
      rcases h with h|h|h|h <;>
        first
          | exact Or.inl (mem_padNum_range _ _ _ h)
          | (subst h; simp)
theorem mem_zRewriteChars (r : List Char) (c : Char) (h : c ∈ zRewriteChars r) :
    c ∈ r ∨ c = 'Z' := by
  unfold zRewriteChars at h
  by_cases he : pyEndsWith r plusZeroSuffix = true
  · rw [if_pos he] at h
    rcases List.mem_append.mp h with h1 | h2
    · exact Or.inl (List.take_subset _ _ h1)
    · simp only [List.mem_singleton] at h2; exact Or.inr h2
  · rw [if_neg he] at h
    exact Or.inl h

theorem mem_isoChars_safe (d : PyDateTime) (c : Char) (h : c ∈ d.isoChars) :
    safeChar c = true := by
  unfold PyDateTime.isoChars at h
  rcases List.mem_append.mp h with h1 | h2
  · rcases mem_isoBaseChars d c h1 with hr | h | h | h | h
    · exact safe_of_digit_range c hr.1 hr.2
    · exact h ▸ safe_dash
    · exact h ▸ safe_T
    · exact h ▸ safe_colon
    · exact h ▸ safe_dot
  · rcases mem_offsetChars d.tz c h2 with hr | h | h | h
    · exact safe_of_digit_range c hr.1 hr.2
    · exact h ▸ safe_plus
    · exact h ▸ safe_dash
    · exact h ▸ safe_colon

theorem string_mk_data (l : List Char) : (String.mk l).data = l := rfl

theorem encodeDatesText_data (d : PyDateTime) :
    (encodeDatesText d).data = zRewriteChars d.isoChars := by
  have h1 : encodeDatesText d = String.mk (zRewriteChars d.isoChars) := rfl
  rw [h1, string_mk_data]

theorem encodeDatesText_safe (d : PyDateTime) (c : Char)
    (h : c ∈ (encodeDatesText d).data) : safeChar c = true := by
  rw [encodeDatesText_data] at h
  rcases mem_zRewriteChars _ _ h with h1 | h2
  · exact mem_isoChars_safe d c h1
  · exact h2 ▸ safe_Z

theorem mem_timeIsoChars (t : PyTime) (c : Char) (h : c ∈ t.isoChars) :
    (48 ≤ c.toNat ∧ c.toNat ≤ 57) ∨ c = ':' ∨ c = '.' ∨ c ∈ offsetChars t.tz := by
  unfold PyTime.isoChars at h
  by_cases hm : t.microsecond = 0
  · rw [if_pos hm] at h
    simp only [List.mem_append, List.mem_singleton, List.append_nil, List.not_mem_nil,
      or_false, false_or, or_assoc] at h
    rcases h with h|h|h|h|h|h <;>
      first
        | exact Or.inl (mem_padNum_range _ _ _ h)
        | (subst h; simp)
        | exact Or.inr (Or.inr (Or.inr h))
  · rw [if_neg hm] at h
    simp only [List.mem_append, List.mem_singleton, List.mem_cons, List.not_mem_nil,
      or_false, false_or, or_assoc] at h
    rcases h with h|h|h|h|h|h|h|h <;>
      first
        | exact Or.inl (mem_padNum_range _ _ _ h)
        | (subst h; simp)
        | exact Or.inr (Or.inr (Or.inr h))

theorem timeIso_safe (t : PyTime) (c : Char) (h : c ∈ t.isoChars) :
    safeChar c = true := by
  rcases mem_timeIsoChars t c h with hr | h | h | hoff
  · exact safe_of_digit_range c hr.1 hr.2
  · exact h ▸ safe_colon
  · exact h ▸ safe_dot
  · rcases mem_offsetChars t.tz c hoff with hr | h | h | h
    · exact safe_of_digit_range c hr.1 hr.2
    · exact h ▸ safe_plus
    · exact h ▸ safe_dash
    · exact h ▸ safe_colon

theorem mem_dashed (u : UUIDVal) (c : Char) (h : c ∈ u.dashed) :
    c ∈ u.hex.data ∨ c = '-' := by
  unfold UUIDVal.dashed at h
  simp only [List.mem_append, List.mem_singleton, or_assoc] at h
  rcases h with h|h|h|h|h|h|h|h|h <;>
    first
      | exact Or.inl (List.take_subset _ _ h)
      | exact Or.inl (List.drop_subset _ _ (List.take_subset _ _ h))
      | exact Or.inl (List.drop_subset _ _ h)
      | (subst h; simp)

/-! ### The five default-registered kinds, as one type -/

/-- A value of one of the five default-registered kinds. -/
inductive RegisteredVal where
  | dt (d : PyDateTime) : RegisteredVal
  | date (d : PyDate) : RegisteredVal
  | time (t : PyTime) : RegisteredVal
  | dec (x : DecimalVal) : RegisteredVal
  | uu (u : UUIDVal) : RegisteredVal

/-- The embedded Python value. -/
def RegisteredVal.toPyVal : RegisteredVal → PyVal
  | .dt d => .datetime d
  | .date d => .date d
  | .time t => .time t
  | .dec x => .decimal x
  | .uu u => .uuid u

/-- The flat text `JSONEncoder.default` produces for the value. -/
def RegisteredVal.encText : RegisteredVal → String
  | .dt d => encodeDatesText d
  | .date d => encodeDatesText d.toMidnight
  | .time t => t.isoformat
  | .dec x => x.text
  | .uu u => u.str

/-- ASCII-cleanliness of the textual forms: automatic for the temporal
kinds; for decimal text and uuid hex an assumption matching what the
Python types produce. -/
def RegisteredVal.WF : RegisteredVal → Prop
  | .dt _ => True
  | .date _ => True
  | .time _ => True
  | .dec x => ∀ c ∈ x.text.data, safeChar c = true
  | .uu u => ∀ c ∈ u.hex.data, safeChar c = true

theorem encText_safe (v : RegisteredVal) (hv : v.WF) :
    ∀ c ∈ v.encText.data, safeChar c = true := by
  cases v with
  | dt d => exact fun c hc => encodeDatesText_safe d c hc
  | date d => exact fun c hc => encodeDatesText_safe d.toMidnight c hc
  | time t =>
    intro c hc
    have h1 : (RegisteredVal.time t).encText = String.mk t.isoChars := rfl
    rw [h1, string_mk_data] at hc
    exact timeIso_safe t c hc
  | dec x => exact hv
  | uu u =>
    intro c hc
    have h1 : (RegisteredVal.uu u).encText = String.mk u.dashed := rfl
    rw [h1, string_mk_data] at hc
    rcases mem_dashed u c hc with h | h
    · exact hv c h
    · exact h ▸ safe_dash

/-- C1 (corrected): the round-trip law fails.  For every value of a
default-registered kind, the encoder emits the flat textual form (there
is no envelope), so decoding the encoder's output returns that text as
a plain string — never a value of the original kind. -/
theorem claim1_roundtrip_amended (v : RegisteredVal) (hv : v.WF) :
    dumps v.toPyVal = .ok (jsonQuote v.encText)
    ∧ loads (.str (jsonQuote v.encText)) true = .ok (.str v.encText)
    ∧ (Except.ok (PyVal.str v.encText) : Except PyErr PyVal) ≠ .ok v.toPyVal := by
  refine ⟨?_, ?_, ?_⟩
  · cases v <;> rfl
  · show jsonLoadsText (jsonQuote v.encText) = .ok (.str v.encText)
    exact jsonLoadsText_quote _ (encText_safe v hv)
  · cases v <;> simp [RegisteredVal.toPyVal]

/-- Witness for the amended C1 at the decimal value 19.99. -/
theorem claim1_roundtrip_amended_witness :
    (RegisteredVal.dec ⟨"19.99"⟩).WF
    ∧ (dumps (RegisteredVal.dec ⟨"19.99"⟩).toPyVal
          = .ok (jsonQuote (RegisteredVal.dec ⟨"19.99"⟩).encText)
        ∧ loads (.str (jsonQuote (RegisteredVal.dec ⟨"19.99"⟩).encText)) true
          = .ok (.str (RegisteredVal.dec ⟨"19.99"⟩).encText)
        ∧ (Except.ok (PyVal.str (RegisteredVal.dec ⟨"19.99"⟩).encText)
            : Except PyErr PyVal) ≠ .ok (RegisteredVal.dec ⟨"19.99"⟩).toPyVal) :=
  ⟨by show ∀ c ∈ ("19.99" : String).data, safeChar c = true
      decide,
   claim1_roundtrip_amended (RegisteredVal.dec ⟨"19.99"⟩)
     (by show ∀ c ∈ ("19.99" : String).data, safeChar c = true
         decide)⟩

/-- C1 counterexample: at the decimal value 19.99, dumps produces the
plain JSON string `"19.99"`, and loads of that output returns the text
`19.99`, which is not the decimal value. -/
theorem claim1_roundtrip_counterexample :
    dumps (.decimal ⟨"19.99"⟩) = .ok "\"19.99\""
    ∧ loads (.str "\"19.99\"") true = .ok (.str "19.99")
    ∧ (Except.ok (PyVal.str "19.99") : Except PyErr PyVal)
      ≠ .ok (PyVal.decimal ⟨"19.99"⟩)
    ∧ (dumps (.decimal ⟨"19.99"⟩)).bind (fun s => loads (.str s) true)
      ≠ .ok (PyVal.decimal ⟨"19.99"⟩) := by
  refine ⟨rfl, rfl, by simp, ?_⟩
  intro h
  rw [show (dumps (PyVal.decimal ⟨"19.99"⟩)).bind (fun s => loads (.str s) true)
      = Except.ok (PyVal.str "19.99") from rfl] at h
  simp at h

/-- C2 counterexample: dumps of the decimal 19.99 yields the plain JSON
string `"19.99"`, not the two-key envelope text the claim promises. -/
theorem claim2_envelope_counterexample :
    dumps (.decimal ⟨"19.99"⟩) = .ok "\"19.99\""
    ∧ ("\"19.99\"" : String)
      ≠ "\x7b\"__type__\": \"decimal\", \"__value__\": \"19.99\"\x7d"
    ∧ dumps (.decimal ⟨"19.99"⟩)
      ≠ .ok "\x7b\"__type__\": \"decimal\", \"__value__\": \"19.99\"\x7d" := by
  refine ⟨rfl, by decide, ?_⟩
  intro h
  rw [show dumps (PyVal.decimal ⟨"19.99"⟩) = Except.ok "\"19.99\"" from rfl] at h
  injection h with h2
  exact absurd h2 (by decide)

/-- C2 (corrected): encoding produces the plain textual JSON string
(the encoder never consults the envelope registry), while decoding the
envelope text still yields the decimal value 19.99. -/
theorem claim2_envelope_amended :
    dumps (.decimal ⟨"19.99"⟩) = .ok "\"19.99\""
    ∧ loads (.str "\x7b\"__type__\": \"decimal\", \"__value__\": \"19.99\"\x7d") true
      = .ok (.decimal ⟨"19.99"⟩) :=
  ⟨rfl, rfl⟩

/-- C3 counterexample: the plain date 2024-01-02 is encoded as
`2024-01-02T00:00:00`, which contains a time component and differs from
the date-only isoformat text. -/
theorem claim3_date_counterexample :
    JSONEncoder.default (.date ⟨2024, 1, 2⟩) = .ok (.str "2024-01-02T00:00:00")
    ∧ 'T' ∈ ("2024-01-02T00:00:00" : String).data
    ∧ ("2024-01-02T00:00:00" : String) ≠ (PyDate.mk 2024 1 2).isoformat :=
  ⟨rfl, by decide, by decide⟩
/-- C3 (corrected): a plain date is promoted to a naive midnight
datetime, so the encoder emits full ISO-8601 date-time text: the
date-only isoformat followed by `T00:00:00`. -/
theorem claim3_date_amended (d : PyDate) :
    JSONEncoder.default (.date d)
      = .ok (.str (String.mk (d.isoChars ++ ['T', '0', '0', ':', '0', '0', ':', '0', '0']))) := by
  show Except.ok (PyVal.str (encodeDatesText d.toMidnight)) = _
  have hz : zRewriteChars (d.toMidnight).isoChars = (d.toMidnight).isoChars := by
    unfold zRewriteChars
    have hplus : '+' ∉ (d.toMidnight).isoChars := by
      unfold PyDateTime.isoChars
      have hoff : offsetChars (d.toMidnight).tz = [] := rfl
      rw [hoff, List.append_nil]
      exact plus_not_mem_isoBaseChars _
    rw [pyEndsWith_plus_false _ hplus]
    simp
  have hbase : (d.toMidnight).isoChars
      = d.isoChars ++ ['T', '0', '0', ':', '0', '0', ':', '0', '0'] := by
    unfold PyDateTime.isoChars PyDateTime.isoBaseChars PyDate.toMidnight PyDate.isoChars
    have hp : padNum 2 0 = ['0', '0'] := by decide
    simp [hp, offsetChars]
  have he : encodeDatesText d.toMidnight
      = String.mk (zRewriteChars (d.toMidnight).isoChars) := rfl
  rw [he, hz, hbase]
/-- C4: on an object literal whose key set is exactly the reserved pair
and whose marker has no registered decoder, the hook raises
`ValueError("Unsupported type", ..., o)` whose payload `o` carries the
marker string, and never returns the object unchanged; concretely,
`loads` surfaces this error for the marker "unknown". -/
theorem claim4_unsupported_type (o : List (String × PyVal)) (m : String)
    (hk : keySetEq (o.map Prod.fst) ["__type__", "__value__"] = true)
    (hm : dictGet o "__type__" = Option.some (.str m))
    (hd : (List.lookup m defaultDecoders).isNone = true) :
    object_hook o = .error (.valueError "Unsupported type" o)
    ∧ dictGet o "__type__" = Option.some (.str m)
    ∧ loads (.str "\x7b\"__type__\": \"unknown\", \"__value__\": \"x\"\x7d") true
      = .error (.valueError "Unsupported type"
          [("__type__", .str "unknown"), ("__value__", .str "x")]) := by
  refine ⟨?_, hm, rfl⟩
  unfold object_hook object_hookWith
  rw [if_pos hk, hm]
  have hnone : decodersGet defaultDecoders (.str m) = Option.none := by
    show List.lookup m defaultDecoders = Option.none
    exact Option.isNone_iff_eq_none.mp hd
  simp only [hnone]

/-- Witness for C4 at the envelope with marker "unknown". -/
theorem claim4_unsupported_type_witness :
    (keySetEq ([("__type__", PyVal.str "unknown"), ("__value__", PyVal.str "x")].map Prod.fst)
        ["__type__", "__value__"] = true)
    ∧ (dictGet [("__type__", PyVal.str "unknown"), ("__value__", PyVal.str "x")] "__type__"
        = Option.some (.str "unknown"))
    ∧ ((List.lookup "unknown" defaultDecoders).isNone = true)
    ∧ (object_hook [("__type__", PyVal.str "unknown"), ("__value__", PyVal.str "x")]
          = .error (.valueError "Unsupported type"
              [("__type__", PyVal.str "unknown"), ("__value__", PyVal.str "x")])
        ∧ dictGet [("__type__", PyVal.str "unknown"), ("__value__", PyVal.str "x")] "__type__"
          = Option.some (.str "unknown")
        ∧ loads (.str "\x7b\"__type__\": \"unknown\", \"__value__\": \"x\"\x7d") true
          = .error (.valueError "Unsupported type"
              [("__type__", .str "unknown"), ("__value__", .str "x")])) :=
  ⟨rfl, rfl, rfl,
   claim4_unsupported_type
     [("__type__", PyVal.str "unknown"), ("__value__", PyVal.str "x")] "unknown" rfl rfl rfl⟩

/-- C5: a decoded object literal whose key set is not exactly the
reserved pair is returned unchanged; concretely, a plain two-key
mapping parses to itself. -/
theorem claim5_plain_object (o : List (String × PyVal))
    (hk : keySetEq (o.map Prod.fst) ["__type__", "__value__"] = false) :
    object_hook o = .ok (.dict o)
    ∧ loads (.str "\x7b\"a\": 1, \"b\": 2\x7d") true
      = .ok (.dict [("a", .int 1), ("b", .int 2)]) := by
  refine ⟨?_, rfl⟩
  unfold object_hook object_hookWith
  rw [hk]
  simp

/-- Witness for C5 at the mapping with keys a and b. -/
theorem claim5_plain_object_witness :
    (keySetEq ([("a", PyVal.int 1), ("b", PyVal.int 2)].map Prod.fst)
        ["__type__", "__value__"] = false)
    ∧ (object_hook [("a", PyVal.int 1), ("b", PyVal.int 2)]
          = .ok (.dict [("a", PyVal.int 1), ("b", PyVal.int 2)])
        ∧ loads (.str "\x7b\"a\": 1, \"b\": 2\x7d") true
          = .ok (.dict [("a", .int 1), ("b", .int 2)])) :=
  ⟨rfl, claim5_plain_object [("a", PyVal.int 1), ("b", PyVal.int 2)] rfl⟩

/-- C7: the `__json__` reducer is the first step of the fallback chain
and wins regardless of the value's kind: the encoder returns the
reducer's result directly, and serialization serializes exactly that
result. -/
theorem claim7_json_method_first (u p : PyVal) :
    JSONEncoder.default (.objJson u p) = .ok p
    ∧ serializeVal (.objJson u p) = serializeVal p :=
  ⟨rfl, rfl⟩

/-- C10: the isinstance chain in `loads` decodes memoryview and
bytearray inputs before parsing regardless of the flag; the flag gates
eager decoding only for raw bytes, which otherwise reach the underlying
parser still raw. -/
theorem claim10_decode_bytes_gate (b : List Nat) (flag : Bool) :
    loads (.memoryview b) flag = loads (.memoryview b) true
    ∧ loads (.bytearray b) flag = loads (.bytearray b) true
    ∧ loadsNormalize (.memoryview b) flag = (pyDecodeUtf8 b).map JsonInput.text
    ∧ loadsNormalize (.bytearray b) flag = (pyDecodeUtf8 b).map JsonInput.text
    ∧ loadsNormalize (.bytes b) true = (pyDecodeUtf8 b).map JsonInput.text
    ∧ loadsNormalize (.bytes b) false = .ok (.raw b) :=
  ⟨rfl, rfl, rfl, rfl, rfl, rfl⟩
/-- C9: `register_type` affects only the decode path.  After any
registration, encoding an instance of an unregistered, unhandled type
with no `__json__` method still raises the serialization TypeError —
the encoder never reads the encode-side table — while the decode hook
immediately uses the newly registered decoder for its marker. -/
theorem claim9_register_type_decode_only (st : Registries) (tname marker : String)
    (enc : PyVal → PyVal) (dec : DecoderT) (instName : String) (v : PyVal) :
    dumps (.foreignObj instName) = .error (.typeError "Object is not JSON serializable")
    ∧ object_hookWith (register_type st tname marker enc dec).decoders
        [("__type__", .str marker), ("__value__", v)] = dec v := by
  refine ⟨rfl, ?_⟩
  unfold object_hookWith register_type
  rw [if_pos (by rfl)]
  show (match decodersGet ((marker, dec) :: st.decoders) (.str marker) with
        | Option.some decoder =>
          match dictGet [("__type__", PyVal.str marker), ("__value__", v)] "__value__" with
          | Option.none => Except.error (PyErr.keyError "__value__")
          | Option.some vv => decoder vv
        | Option.none => Except.error (PyErr.valueError "Unsupported type"
            [("__type__", PyVal.str marker), ("__value__", v)]))
      = dec v
  have hlook : decodersGet ((marker, dec) :: st.decoders) (.str marker)
      = Option.some dec := by
    show List.lookup marker ((marker, dec) :: st.decoders) = Option.some dec
    simp
  simp only [hlook]
  rfl
/-! ### Helper lemmas: UTF-8 round trip -/

theorem char_valid_nat (c : Char) :
    c.toNat < 55296 ∨ (57343 < c.toNat ∧ c.toNat < 1114112) := c.valid

theorem utf8DecodeStep_encodeCp (c : Char) (l : List Nat) :
    utf8DecodeStep (utf8EncodeCp c.toNat ++ l) = Option.some (c, l) := by
  have hv := char_valid_nat c
  by_cases h1 : c.toNat < 128
  · have he : utf8EncodeCp c.toNat = [c.toNat] := by
      unfold utf8EncodeCp; rw [if_pos h1]
    rw [he, List.cons_append, List.nil_append]
    simp only [utf8DecodeStep]
    rw [if_pos h1, Char.ofNat_toNat]
  · by_cases h2 : c.toNat < 2048
    · have he : utf8EncodeCp c.toNat
          = [192 + c.toNat / 64, 128 + c.toNat % 64] := by
        unfold utf8EncodeCp; rw [if_neg h1, if_pos h2]
      rw [he]
      simp only [List.cons_append, List.nil_append, utf8DecodeStep]
      rw [if_neg (by omega), if_neg (by omega), if_pos (by omega)]
      have hc : isCont (128 + c.toNat % 64) = true := by
        simp only [isCont, Bool.and_eq_true, decide_eq_true_iff]
        omega
      rw [hc]
      have harith : (192 + c.toNat / 64 - 192) * 64 + (128 + c.toNat % 64 - 128)
          = c.toNat := by omega
      simp only [if_true]
      rw [harith, Char.ofNat_toNat]
    · by_cases h3 : c.toNat < 65536
      · have he : utf8EncodeCp c.toNat
            = [224 + c.toNat / 4096, 128 + c.toNat / 64 % 64, 128 + c.toNat % 64] := by
          unfold utf8EncodeCp; rw [if_neg h1, if_neg h2, if_pos h3]
        rw [he]
        simp only [List.cons_append, List.nil_append, utf8DecodeStep]
        rw [if_neg (by omega), if_neg (by omega), if_neg (by omega), if_pos (by omega)]
        have hc1 : isCont (128 + c.toNat / 64 % 64) = true := by
          simp only [isCont, Bool.and_eq_true, decide_eq_true_iff]
          omega
        have hc2 : isCont (128 + c.toNat % 64) = true := by
          simp only [isCont, Bool.and_eq_true, decide_eq_true_iff]
          omega
        rw [hc1, hc2]
        simp only [Bool.and_self, if_true]
        have harith : (224 + c.toNat / 4096 - 224) * 4096
            + (128 + c.toNat / 64 % 64 - 128) * 64 + (128 + c.toNat % 64 - 128)
            = c.toNat := by omega
        rw [harith]
        have hok : (2048 ≤ c.toNat && (c.toNat < 55296 || 57344 ≤ c.toNat)) = true := by
          simp only [Bool.and_eq_true, Bool.or_eq_true, decide_eq_true_iff]
          omega
        rw [hok]
        simp only [if_true]
        rw [Char.ofNat_toNat]
      · have he : utf8EncodeCp c.toNat
            = [240 + c.toNat / 262144, 128 + c.toNat / 4096 % 64,
               128 + c.toNat / 64 % 64, 128 + c.toNat % 64] := by
          unfold utf8EncodeCp; rw [if_neg h1, if_neg h2, if_neg h3]
        rw [he]
        simp only [List.cons_append, List.nil_append, utf8DecodeStep]
        rw [if_neg (by omega), if_neg (by omega), if_neg (by omega), if_neg (by omega),
          if_pos (by omega)]
        have hc1 : isCont (128 + c.toNat / 4096 % 64) = true := by
          simp only [isCont, Bool.and_eq_true, decide_eq_true_iff]
          omega
        have hc2 : isCont (128 + c.toNat / 64 % 64) = true := by
          simp only [isCont, Bool.and_eq_true, decide_eq_true_iff]
          omega
        have hc3 : isCont (128 + c.toNat % 64) = true := by
          simp only [isCont, Bool.and_eq_true, decide_eq_true_iff]
          omega
        rw [hc1, hc2, hc3]
        simp only [Bool.and_self, if_true]
        have harith : (240 + c.toNat / 262144 - 240) * 262144
            + (128 + c.toNat / 4096 % 64 - 128) * 4096
            + (128 + c.toNat / 64 % 64 - 128) * 64 + (128 + c.toNat % 64 - 128)
            = c.toNat := by omega
        rw [harith]
        have hok : (65536 ≤ c.toNat && c.toNat < 1114112) = true := by
          simp only [Bool.and_eq_true, decide_eq_true_iff]
          omega
        rw [hok]
        simp only [if_true]
        rw [Char.ofNat_toNat]
theorem utf8EncodeCp_length_pos (n : Nat) : 1 ≤ (utf8EncodeCp n).length := by
  unfold utf8EncodeCp
  by_cases h1 : n < 128
  · rw [if_pos h1]; simp
  · rw [if_neg h1]
    by_cases h2 : n < 2048
    · rw [if_pos h2]; simp
    · rw [if_neg h2]
      by_cases h3 : n < 65536
      · rw [if_pos h3]; simp
      · rw [if_neg h3]; simp

theorem utf8DecodeLoop_encode :
    ∀ (cs : List Char) (f : Nat),
      (cs.flatMap (fun c => utf8EncodeCp c.toNat)).length ≤ f →
      utf8DecodeLoop f (cs.flatMap (fun c => utf8EncodeCp c.toNat)) = Option.some cs := by
  intro cs
  induction cs with
  | nil =>
    intro f _
    cases f <;> rfl
  | cons c cs ih =>
    intro f hf
    simp only [List.flatMap_cons] at hf ⊢
    have hne : 1 ≤ (utf8EncodeCp c.toNat).length := utf8EncodeCp_length_pos c.toNat
    cases f with
    | zero =>
      exfalso
      simp only [List.length_append] at hf
      omega
    | succ f =>
      obtain ⟨b, tail, hbt⟩ : ∃ b tail, utf8EncodeCp c.toNat = b :: tail := by
        cases hhe : utf8EncodeCp c.toNat with
        | nil => rw [hhe] at hne; simp at hne
        | cons b tail => exact ⟨b, tail, rfl⟩
      rw [hbt, List.cons_append]
      simp only [utf8DecodeLoop]
      have hstep : utf8DecodeStep (b :: (tail ++ cs.flatMap (fun x => utf8EncodeCp x.toNat)))
          = Option.some (c, cs.flatMap (fun x => utf8EncodeCp x.toNat)) := by
        rw [← List.cons_append, ← hbt]
        exact utf8DecodeStep_encodeCp c _
      rw [hstep]
      have hf2 : (cs.flatMap (fun x => utf8EncodeCp x.toNat)).length ≤ f := by
        rw [hbt] at hf
        simp only [List.cons_append, List.length_cons, List.length_append] at hf
        omega
      simp only [ih f hf2]
      rfl

theorem pyDecodeUtf8_encode (s : String) : pyDecodeUtf8 (utf8Encode s) = .ok s := by
  unfold pyDecodeUtf8 utf8Encode utf8DecodeChars
  rw [utf8DecodeLoop_encode s.data _ (by omega)]
/-- C8: `loads` of the UTF-8 bytes of a text with the decode-bytes flag
set gives the same result as `loads` of the text itself, and a
read-only memory view of the same bytes gives an identical result
(whatever the flag, which does not apply to memoryviews). -/
theorem claim8_binary_inputs (t : String) (flag : Bool) :
    loads (.bytes (utf8Encode t)) true = loads (.str t) true
    ∧ loads (.memoryview (utf8Encode t)) flag = loads (.bytes (utf8Encode t)) true := by
  constructor
  · show ((pyDecodeUtf8 (utf8Encode t)).map JsonInput.text).bind jsonLoads
        = (Except.ok (JsonInput.text t)).bind jsonLoads
    rw [pyDecodeUtf8_encode]
    rfl
  · show ((pyDecodeUtf8 (utf8Encode t)).map JsonInput.text).bind jsonLoads
        = ((pyDecodeUtf8 (utf8Encode t)).map JsonInput.text).bind jsonLoads
    rfl
